import Mathlib

/-!
Verification of the SSP peak-binning and feature-assembly pipeline
(`src/ssp.py`) against its natural-language specification.

The Python source is shallowly embedded: chemical shifts are rationals,
Python float floor division `//` is `Int.floor` of the rational quotient,
numpy count matrices are a structure carrying a shape and an entry
function, and the prediction pipeline is an explicit function chain.
-/

namespace SSP

/-- Embedding of `binning(shifts, binsize, shift_min, num_1D_grid)`
(src/ssp.py lines 93-109): for each value compute
`bin_index = int((ppm_value - shift_min) // binsize)` (floor division),
skip it when `bin_index > num_1D_grid - 1` or `bin_index < 0`,
otherwise append it. -/
def binning (shifts : List ℚ) (binsize : ℚ) (shift_min : ℚ) (num_1D_grid : ℕ) : List ℤ :=
  match shifts with
  | [] => []
  | ppm_value :: rest =>
    let bin_index : ℤ := ⌊(ppm_value - shift_min) / binsize⌋
    if bin_index > (num_1D_grid : ℤ) - 1 then
      binning rest binsize shift_min num_1D_grid
    else if bin_index < 0 then
      binning rest binsize shift_min num_1D_grid
    else
      bin_index :: binning rest binsize shift_min num_1D_grid

/-- A numpy 2D array of counts: a shape `(rows, cols)` together with an
entry function. Entries outside the shape are irrelevant junk (the
verified pipeline only ever touches in-range cells, see claim C9). -/
structure NPMatrix where
  rows : ℕ
  cols : ℕ
  entry : ℤ → ℤ → ℕ

/-- Embedding of `np.zeros((r, c))`. -/
def np_zeros (r c : ℕ) : NPMatrix :=
  { rows := r, cols := c, entry := fun _ _ => 0 }

/-- Embedding of `matrix[r, c] += 1` on a count matrix. -/
def np_incr (m : NPMatrix) (r c : ℤ) : NPMatrix :=
  { m with entry := fun r' c' => if r' = r ∧ c' = c then m.entry r' c' + 1 else m.entry r' c' }

/-- Embedding of `generate_count_peaks_matrix` (src/ssp.py lines 123-131):
zero matrix of shape `(N_num_1D_grid, H_num_1D_grid)`, then
`for H_shift_bin, N_shift_bin in zip(binned_H_shifts, binned_N_shifts):
  count_peaks_matrix[N_shift_bin, H_shift_bin] += 1`. -/
def generate_count_peaks_matrix (binned_H_shifts binned_N_shifts : List ℤ)
    (H_num_1D_grid N_num_1D_grid : ℕ) : NPMatrix :=
  (binned_H_shifts.zip binned_N_shifts).foldl
    (fun m p => np_incr m p.2 p.1)
    (np_zeros N_num_1D_grid H_num_1D_grid)

/-- Embedding of `matrix.reshape(-1)` on a C-order (row-major) numpy
array: rows outer, columns inner. -/
def flatten (m : NPMatrix) : List ℕ :=
  ((List.range m.rows).map
    (fun (r : ℕ) => (List.range m.cols).map (fun (c : ℕ) => m.entry (r : ℤ) (c : ℤ)))).flatten

/-- Embedding of `SecStrucPredictor.combine_inputs` (src/ssp.py lines
32-40): reshape each matrix to 1D and concatenate
`matrix_20x10 ++ matrix_26x10 ++ matrix_10x8`. No shape check is
performed. -/
def combine_inputs (matrix_20x10 matrix_26x10 matrix_10x8 : NPMatrix) : List ℕ :=
  flatten matrix_20x10 ++ flatten matrix_26x10 ++ flatten matrix_10x8

/-- Sum of all cells of the shaped matrix. -/
def sumCells (m : NPMatrix) : ℕ :=
  ∑ r in Finset.range m.rows, ∑ c in Finset.range m.cols, m.entry r c

/-- Pipeline constant (src/ssp.py line 183). -/
def H_shift_max : ℚ := 11
/-- Pipeline constant (src/ssp.py line 184). -/
def H_shift_min : ℚ := 6
/-- Pipeline constant (src/ssp.py line 186). -/
def N_shift_max : ℚ := 140
/-- Pipeline constant (src/ssp.py line 187). -/
def N_shift_min : ℚ := 90

/-- The three fixed `(H_num_1D_grid, N_num_1D_grid)` pairs iterated by
the main loop (src/ssp.py line 189). -/
def grid_sizes : List (ℕ × ℕ) := [(10, 20), (10, 26), (8, 10)]

/-- One iteration of the main loop (src/ssp.py lines 189-200): compute
the two bin sizes, bin each axis independently, and build the count
matrix. -/
def make_count_matrix (H_shifts N_shifts : List ℚ) (H_num_1D_grid N_num_1D_grid : ℕ) :
    NPMatrix :=
  let H_binsize := (H_shift_max - H_shift_min) / (H_num_1D_grid : ℚ)
  let N_binsize := (N_shift_max - N_shift_min) / (N_num_1D_grid : ℚ)
  let binned_H_shifts := binning H_shifts H_binsize H_shift_min H_num_1D_grid
  let binned_N_shifts := binning N_shifts N_binsize N_shift_min N_num_1D_grid
  generate_count_peaks_matrix binned_H_shifts binned_N_shifts H_num_1D_grid N_num_1D_grid

/-- The `input_matrices` list accumulated by the main loop. -/
def input_matrices (H_shifts N_shifts : List ℚ) : List NPMatrix :=
  grid_sizes.map (fun g => make_count_matrix H_shifts N_shifts g.1 g.2)

/-- Embedding of `get_input` followed by `combine_inputs` (src/ssp.py
lines 23-40 and 203-204): the three accumulated matrices, indexed by
position, are flattened and concatenated into the 540-long feature
vector handed to the regressor. -/
def pipeline_features (H_shifts N_shifts : List ℚ) : List ℕ :=
  let ms := input_matrices H_shifts N_shifts
  combine_inputs (ms.getD 0 (np_zeros 0 0)) (ms.getD 1 (np_zeros 0 0)) (ms.getD 2 (np_zeros 0 0))

/-- A Topspin peak: an intensity and a 2-element position
`(H shift, N shift)` (src/ssp.py lines 170-176). -/
structure Peak where
  intensity : ℚ
  position : ℚ × ℚ

/-- Embedding of the interactive branch of `__main__` (src/ssp.py lines
155-176): raise on an empty peak list, otherwise keep the positions of
the peaks whose relative intensity is `> 0`. -/
def interactive_shifts (peak_list : List Peak) : Except String (List ℚ × List ℚ) :=
  if peak_list.length = 0 then
    Except.error "NO PEAKS SELECTED! Use the pp command or select the peaks manually!"
  else
    let max_intensity := ((peak_list.map Peak.intensity).max?).getD 0
    let retained := peak_list.filter (fun peak => decide (peak.intensity / max_intensity > 0))
    Except.ok (retained.map (fun peak => peak.position.1), retained.map (fun peak => peak.position.2))

/-- The pipeline run on peaks coming from the instrument (interactive
branch): empty-input check, intensity filtering, then the feature
pipeline. -/
def run_interactive (peak_list : List Peak) : Except String (List ℕ) :=
  (interactive_shifts peak_list).map (fun s => pipeline_features s.1 s.2)

/-- The pipeline run on peaks parsed from a CSV file (test and `.csv`
branches of `__main__`, src/ssp.py lines 137-153): the two shift columns
go straight to the feature pipeline, with no empty-input check. -/
def run_csv (H_shifts N_shifts : List ℚ) : List ℕ :=
  pipeline_features H_shifts N_shifts

/-- Python `round(x)` to an integer: round half to even. -/
def roundHalfEven (x : ℚ) : ℤ :=
  if x - ⌊x⌋ < 1 / 2 then ⌊x⌋
  else if 1 / 2 < x - ⌊x⌋ then ⌊x⌋ + 1
  else if Even ⌊x⌋ then ⌊x⌋ else ⌊x⌋ + 1

/-- Python `round(x, 3)`: round to three decimal places, half to even. -/
def pyRound3 (x : ℚ) : ℚ :=
  (roundHalfEven (x * 1000) : ℚ) / 1000

/-- The three reported percentages. -/
structure CompositionResult where
  coil : ℚ
  sheet : ℚ
  helix : ℚ

/-- Embedding of the result line (src/ssp.py line 207):
`Helix: round(prediction[2],3)*100`, `Sheet: round(prediction[1],3)*100`,
`Coil: round(prediction[0],3)*100`. -/
def formatPrediction (prediction : List ℚ) : CompositionResult :=
  { coil := pyRound3 (prediction.getD 0 0) * 100
    sheet := pyRound3 (prediction.getD 1 0) * 100
    helix := pyRound3 (prediction.getD 2 0) * 100 }

/-- Joint per-peak binning as the specification describes it (spec §4.2
and §9): compute both indices of each peak together and keep the pair
only when both are in range. This definition follows the wording of the
spec, not the source; it is the reference the source's independent
per-axis binning is compared against. -/
def jointBinningSpec (peaks : List (ℚ × ℚ)) (H_binsize H_min : ℚ) (H_num : ℕ)
    (N_binsize N_min : ℚ) (N_num : ℕ) : List (ℤ × ℤ) :=
  (peaks.map (fun p => (⌊(p.1 - H_min) / H_binsize⌋, ⌊(p.2 - N_min) / N_binsize⌋))).filter
    (fun q => decide (0 ≤ q.1 ∧ q.1 ≤ (H_num : ℤ) - 1 ∧ 0 ≤ q.2 ∧ q.2 ≤ (N_num : ℤ) - 1))

/-! ### Helper lemmas -/

/-- The binner is the filtered floor map: each value's index is the true
floor of `(value - shift_min) / binsize`, and exactly the in-range
indices survive, in order. -/
theorem binning_eq_filter (shifts : List ℚ) (binsize shift_min : ℚ) (n : ℕ) :
    binning shifts binsize shift_min n
      = (shifts.map (fun v => ⌊(v - shift_min) / binsize⌋)).filter
          (fun i => decide (0 ≤ i ∧ i ≤ (n : ℤ) - 1)) := by
  induction shifts with
  | nil => rfl
  | cons v rest ih =>
    simp only [binning, List.map_cons, List.filter_cons]
    by_cases h1 : ⌊(v - shift_min) / binsize⌋ > (n : ℤ) - 1
    · have hfalse : (decide (0 ≤ ⌊(v - shift_min) / binsize⌋
          ∧ ⌊(v - shift_min) / binsize⌋ ≤ (n : ℤ) - 1)) = false := by
        apply decide_eq_false
        omega
      rw [if_pos h1, ih, hfalse]
      rfl
    · by_cases h2 : ⌊(v - shift_min) / binsize⌋ < 0
      · have hfalse : (decide (0 ≤ ⌊(v - shift_min) / binsize⌋
            ∧ ⌊(v - shift_min) / binsize⌋ ≤ (n : ℤ) - 1)) = false := by
          apply decide_eq_false
          omega
        rw [if_neg h1, if_pos h2, ih, hfalse]
        rfl
      · have htrue : (decide (0 ≤ ⌊(v - shift_min) / binsize⌋
            ∧ ⌊(v - shift_min) / binsize⌋ ≤ (n : ℤ) - 1)) = true := by
          apply decide_eq_true
          omega
        rw [if_neg h1, if_neg h2, ih, htrue]
        rfl

/-- Every index the binner emits is in `[0, num_1D_grid - 1]`. -/
theorem mem_binning_bounds {i : ℤ} {shifts : List ℚ} {binsize shift_min : ℚ} {n : ℕ}
    (h : i ∈ binning shifts binsize shift_min n) : 0 ≤ i ∧ i ≤ (n : ℤ) - 1 := by
  rw [binning_eq_filter] at h
  have := List.of_mem_filter h
  simpa using this

/-- The binner never emits more indices than it was given values. -/
theorem binning_length_le (shifts : List ℚ) (binsize shift_min : ℚ) (n : ℕ) :
    (binning shifts binsize shift_min n).length ≤ shifts.length := by
  rw [binning_eq_filter]
  calc ((shifts.map (fun v => ⌊(v - shift_min) / binsize⌋)).filter
          (fun i => decide (0 ≤ i ∧ i ≤ (n : ℤ) - 1))).length
      ≤ (shifts.map (fun v => ⌊(v - shift_min) / binsize⌋)).length :=
        List.length_filter_le _ _
    _ = shifts.length := List.length_map _ _

/-- A zero matrix sums to zero. -/
theorem sumCells_np_zeros (r c : ℕ) : sumCells (np_zeros r c) = 0 := by
  simp [sumCells, np_zeros]

/-- Incrementing an in-range cell raises the total cell sum by one. -/
theorem sumCells_np_incr (m : NPMatrix) (r c : ℤ)
    (hr0 : 0 ≤ r) (hr1 : r < (m.rows : ℤ)) (hc0 : 0 ≤ c) (hc1 : c < (m.cols : ℤ)) :
    sumCells (np_incr m r c) = sumCells m + 1 := by
  have hentry : ∀ r' c' : ℤ, (np_incr m r c).entry r' c'
      = m.entry r' c' + (if r' = r ∧ c' = c then 1 else 0) := by
    intro r' c'
    by_cases h : r' = r ∧ c' = c <;> simp [np_incr, h]
  have hrows : (np_incr m r c).rows = m.rows := rfl
  have hcols : (np_incr m r c).cols = m.cols := rfl
  rw [sumCells, hrows, hcols]
  have hsplit : ∑ i in Finset.range m.rows, ∑ j in Finset.range m.cols,
        (np_incr m r c).entry i j
      = (∑ i in Finset.range m.rows, ∑ j in Finset.range m.cols, m.entry i j)
        + ∑ i in Finset.range m.rows, ∑ j in Finset.range m.cols,
            (if (i : ℤ) = r ∧ (j : ℤ) = c then 1 else 0) := by
    rw [← Finset.sum_add_distrib]
    apply Finset.sum_congr rfl
    intro i _
    rw [← Finset.sum_add_distrib]
    apply Finset.sum_congr rfl
    intro j _
    exact hentry i j
  rw [hsplit, ← sumCells]
  congr 1
  have hr' : r.toNat < m.rows := by omega
  have hc' : c.toNat < m.cols := by omega
  have hcond : ∀ i j : ℕ, (((i : ℤ) = r ∧ (j : ℤ) = c)) ↔ (i = r.toNat ∧ j = c.toNat) := by
    intro i j
    constructor
    · intro ⟨hi, hj⟩
      omega
    · intro ⟨hi, hj⟩
      omega
  calc ∑ i in Finset.range m.rows, ∑ j in Finset.range m.cols,
        (if (i : ℤ) = r ∧ (j : ℤ) = c then 1 else 0)
      = ∑ i in Finset.range m.rows, ∑ j in Finset.range m.cols,
          (if i = r.toNat ∧ j = c.toNat then 1 else 0) := by
        apply Finset.sum_congr rfl
        intro i _
        apply Finset.sum_congr rfl
        intro j _
        exact if_congr (hcond i j) rfl rfl
    _ = ∑ i in Finset.range m.rows,
          (if i = r.toNat then ∑ j in Finset.range m.cols,
            (if j = c.toNat then 1 else 0) else 0) := by
        apply Finset.sum_congr rfl
        intro i _
        by_cases hi : i = r.toNat
        · simp [hi]
        · simp [hi]
    _ = 1 := by
        rw [Finset.sum_ite_eq' (Finset.range m.rows) r.toNat]
        rw [Finset.sum_ite_eq' (Finset.range m.cols) c.toNat]
        simp [hr', hc']

/-- Folding in-range increments over a matrix adds the number of
increments to the cell sum. -/
theorem sumCells_foldl (l : List (ℤ × ℤ)) (m : NPMatrix)
    (h : ∀ p ∈ l, (0 ≤ p.1 ∧ p.1 < (m.cols : ℤ)) ∧ (0 ≤ p.2 ∧ p.2 < (m.rows : ℤ))) :
    sumCells (l.foldl (fun acc p => np_incr acc p.2 p.1) m) = sumCells m + l.length := by
  induction l generalizing m with
  | nil => simp
  | cons p rest ih =>
    have hp := h p (List.mem_cons_self _ _)
    simp only [List.foldl_cons]
    rw [ih (np_incr m p.2 p.1) (fun q hq => h q (List.mem_cons_of_mem _ hq))]
    rw [sumCells_np_incr m p.2 p.1 hp.2.1 hp.2.2 hp.1.1 hp.1.2]
    simp only [List.length_cons]
    omega

/-- The cell sum of the count matrix is the number of zipped index
pairs, provided every pair is in range. -/
theorem sumCells_generate (binned_H binned_N : List ℤ) (Hn Nn : ℕ)
    (h : ∀ p ∈ binned_H.zip binned_N,
      (0 ≤ p.1 ∧ p.1 < (Hn : ℤ)) ∧ (0 ≤ p.2 ∧ p.2 < (Nn : ℤ))) :
    sumCells (generate_count_peaks_matrix binned_H binned_N Hn Nn)
      = (binned_H.zip binned_N).length := by
  unfold generate_count_peaks_matrix
  rw [sumCells_foldl _ _ (by simpa [np_zeros] using h)]
  rw [sumCells_np_zeros]
  omega

/-- Row-major flattening of an `r × c` matrix has `r * c` entries. -/
theorem length_flatten (m : NPMatrix) : (flatten m).length = m.rows * m.cols := by
  unfold flatten
  rw [List.length_flatten]
  have : ∀ n : ℕ, (((List.range n).map
      (fun (r : ℕ) => (List.range m.cols).map (fun (c : ℕ) => m.entry (r : ℤ) (c : ℤ)))).map
        List.length).sum
      = n * m.cols := by
    intro n
    induction n with
    | zero => simp
    | succ k ih =>
      rw [List.range_succ]
      simp only [List.map_append, List.map_cons, List.map_nil, List.sum_append,
        List.length_map, List.length_range, List.sum_cons, List.sum_nil]
      rw [ih]
      ring
  exact this m.rows

/-- The count matrix keeps the shape it was created with: folding
increments never changes `rows` or `cols`. -/
theorem generate_shape (binned_H binned_N : List ℤ) (Hn Nn : ℕ) :
    (generate_count_peaks_matrix binned_H binned_N Hn Nn).rows = Nn
    ∧ (generate_count_peaks_matrix binned_H binned_N Hn Nn).cols = Hn := by
  unfold generate_count_peaks_matrix
  have : ∀ (l : List (ℤ × ℤ)) (m : NPMatrix),
      ((l.foldl (fun acc p => np_incr acc p.2 p.1) m).rows = m.rows
        ∧ (l.foldl (fun acc p => np_incr acc p.2 p.1) m).cols = m.cols) := by
    intro l
    induction l with
    | nil => intro m; exact ⟨rfl, rfl⟩
    | cons p rest ih =>
      intro m
      simpa [List.foldl_cons, np_incr] using ih (np_incr m p.2 p.1)
  exact this _ _

/-! ### Claims -/

/-- C3: for every input value the binner computes the bin index as the
true floor of `(value - range_min) / bin_size` — the output is exactly
the in-range floor indices, in order, any out-of-range index being
discarded without clamping and without error — and for a value below
`range_min` the floor is negative (so truncation toward zero, which
would give index 0, would differ). -/
theorem claim_C3_floor_and_discard (shifts : List ℚ) (binsize shift_min : ℚ) (n : ℕ) (v : ℚ)
    (hb : 0 < binsize) (hv : v < shift_min) :
    binning shifts binsize shift_min n
      = (shifts.map (fun w => ⌊(w - shift_min) / binsize⌋)).filter
          (fun i => decide (0 ≤ i ∧ i ≤ (n : ℤ) - 1))
    ∧ ⌊(v - shift_min) / binsize⌋ < 0 := by
  refine ⟨binning_eq_filter shifts binsize shift_min n, ?_⟩
  have hneg : (v - shift_min) / binsize < 0 := div_neg_of_neg_of_pos (by linarith) hb
  rw [Int.floor_lt]
  exact_mod_cast hneg

/-- Witness for C3 at a concrete input: bin size 1/2, range minimum 6,
10 bins, values 7 (retained at index 2) and 5 (below the range
minimum). -/
theorem claim_C3_witness :
    (0 < (1/2 : ℚ)) ∧ ((5 : ℚ) < 6)
    ∧ (binning [7, 5] (1/2) 6 10
        = (([7, 5] : List ℚ).map (fun w => ⌊(w - 6) / (1/2)⌋)).filter
            (fun i => decide (0 ≤ i ∧ i ≤ ((10 : ℕ) : ℤ) - 1))
      ∧ ⌊((5 : ℚ) - 6) / (1/2)⌋ < 0) :=
  ⟨by norm_num, by norm_num,
    claim_C3_floor_and_discard [7, 5] (1/2) 6 10 5 (by norm_num) (by norm_num)⟩

/-- C4 counterexample: the claim quantifies over every bin count, but
with bin count 0 (bin size 1, range minimum 6) the value exactly at the
range minimum computes index 0 and is nevertheless discarded, because
`0 > bin_count - 1 = -1`. -/
theorem claim_C4_counterexample : binning [(6 : ℚ)] 1 6 0 = [] := by norm_num [binning]

/-- C4 (amended to positive bin counts): a value exactly at `range_min`
maps to index 0 and is retained, and a value exactly at
`range_min + N * bin_size` computes index `N` and is always dropped. -/
theorem claim_C4_boundaries (N : ℕ) (binsize range_min : ℚ) (hN : 0 < N) (hb : 0 < binsize) :
    binning [range_min] binsize range_min N = [0]
    ∧ ⌊(range_min + N * binsize - range_min) / binsize⌋ = (N : ℤ)
    ∧ binning [range_min + N * binsize] binsize range_min N = [] := by
  have h0 : ⌊(range_min - range_min) / binsize⌋ = 0 := by
    rw [sub_self, zero_div, Int.floor_zero]
  have hNfloor : ⌊(range_min + N * binsize - range_min) / binsize⌋ = (N : ℤ) := by
    rw [add_sub_cancel_left, mul_div_cancel_right₀ _ (ne_of_gt hb)]
    exact Int.floor_natCast N
  refine ⟨?_, hNfloor, ?_⟩
  · simp only [binning, h0]
    rw [if_neg (by omega), if_neg (by omega)]
  · simp only [binning, hNfloor]
    rw [if_pos (by omega)]

/-- Witness for C4 at a concrete input: 10 bins of size 1/2 starting at
6 (the pipeline's H axis for the first GridSpec). -/
theorem claim_C4_witness :
    0 < (10 : ℕ) ∧ 0 < (1/2 : ℚ)
    ∧ (binning [(6 : ℚ)] (1/2) 6 10 = [0]
      ∧ ⌊((6 : ℚ) + (10 : ℕ) * (1/2) - 6) / (1/2)⌋ = ((10 : ℕ) : ℤ)
      ∧ binning [(6 : ℚ) + (10 : ℕ) * (1/2)] (1/2) 6 10 = []) :=
  ⟨by norm_num, by norm_num, claim_C4_boundaries 10 (1/2) 6 (by norm_num) (by norm_num)⟩

/-- C9: every index pair the pipeline feeds to the count-matrix builder
(zipped from two binnings with matching bin counts) is inside
`[0, H_num - 1] × [0, N_num - 1]`, so each increment addresses a cell of
the `(N_num, H_num)` matrix. -/
theorem claim_C9_indices_in_bounds (H_shifts N_shifts : List ℚ)
    (H_binsize N_binsize H_min N_min : ℚ) (H_num N_num : ℕ) (p : ℤ × ℤ)
    (hp : p ∈ (binning H_shifts H_binsize H_min H_num).zip
        (binning N_shifts N_binsize N_min N_num)) :
    (0 ≤ p.1 ∧ p.1 ≤ (H_num : ℤ) - 1) ∧ (0 ≤ p.2 ∧ p.2 ≤ (N_num : ℤ) - 1) := by
  obtain ⟨a, b⟩ := p
  obtain ⟨h1, h2⟩ := List.of_mem_zip hp
  exact ⟨mem_binning_bounds h1, mem_binning_bounds h2⟩

/-- Witness for C9 at a concrete input: the pair (2, 4) produced for a
peak with H shift 7 and N shift 100 under the (10, 20) GridSpec. -/
theorem claim_C9_witness :
    ((2 : ℤ), (4 : ℤ)) ∈ (binning [7] (1/2) 6 10).zip (binning [100] (5/2) 90 20)
    ∧ ((0 ≤ (2 : ℤ) ∧ (2 : ℤ) ≤ ((10 : ℕ) : ℤ) - 1)
      ∧ (0 ≤ (4 : ℤ) ∧ (4 : ℤ) ≤ ((20 : ℕ) : ℤ) - 1)) :=
  ⟨by norm_num [binning], claim_C9_indices_in_bounds [7] [100] (1/2) (5/2) 6 90 10 20 (2, 4)
    (by norm_num [binning])⟩

/-- C1 fails on the code: with peaks (7, 200) and (20, 100) under the
(10, 20) GridSpec (bin sizes 1/2 and 5/2), the pipeline bins the axes
independently and zips positionally, pairing peak 1's H index 2 with
peak 2's N index 4 and counting one phantom peak, whereas joint
per-peak binning (as the spec requires) retains nothing. -/
theorem claim_C1_misalignment :
    (binning [7, 20] (1/2) 6 10).zip (binning [200, 100] (5/2) 90 20) = [(2, 4)]
    ∧ jointBinningSpec [(7, 200), (20, 100)] (1/2) 6 10 (5/2) 90 20 = []
    ∧ sumCells (make_count_matrix [7, 20] [200, 100] 10 20) = 1 := by
  have hmat : make_count_matrix [7, 20] [200, 100] 10 20
      = generate_count_peaks_matrix [2] [4] 10 20 := by
    norm_num [make_count_matrix, H_shift_max, H_shift_min, N_shift_max, N_shift_min, binning]
  refine ⟨by norm_num [binning], by norm_num [jointBinningSpec], ?_⟩
  rw [hmat]
  decide

/-- The count matrix built by one loop iteration has shape
`(N_num_1D_grid, H_num_1D_grid)`. -/
theorem make_count_matrix_shape (H_shifts N_shifts : List ℚ) (Hn Nn : ℕ) :
    (make_count_matrix H_shifts N_shifts Hn Nn).rows = Nn
    ∧ (make_count_matrix H_shifts N_shifts Hn Nn).cols = Hn := by
  unfold make_count_matrix
  exact generate_shape _ _ _ _

/-- The feature vector is definitionally the concatenation of the three
flattened matrices, in the fixed GridSpec order. -/
theorem pipeline_features_eq (H_shifts N_shifts : List ℚ) :
    pipeline_features H_shifts N_shifts
      = flatten (make_count_matrix H_shifts N_shifts 10 20)
        ++ (flatten (make_count_matrix H_shifts N_shifts 10 26)
            ++ flatten (make_count_matrix H_shifts N_shifts 8 10)) := by
  simp only [pipeline_features, input_matrices, grid_sizes, List.map_cons, List.map_nil,
    List.getD_cons_zero, List.getD_cons_succ, combine_inputs]
  exact List.append_assoc _ _ _

/-- The flattened first matrix has 200 entries. -/
theorem length_flat20 (H_shifts N_shifts : List ℚ) :
    (flatten (make_count_matrix H_shifts N_shifts 10 20)).length = 200 := by
  rw [length_flatten, (make_count_matrix_shape H_shifts N_shifts 10 20).1,
    (make_count_matrix_shape H_shifts N_shifts 10 20).2]

/-- The flattened second matrix has 260 entries. -/
theorem length_flat26 (H_shifts N_shifts : List ℚ) :
    (flatten (make_count_matrix H_shifts N_shifts 10 26)).length = 260 := by
  rw [length_flatten, (make_count_matrix_shape H_shifts N_shifts 10 26).1,
    (make_count_matrix_shape H_shifts N_shifts 10 26).2]

/-- The flattened third matrix has 80 entries. -/
theorem length_flat8 (H_shifts N_shifts : List ℚ) :
    (flatten (make_count_matrix H_shifts N_shifts 8 10)).length = 80 := by
  rw [length_flatten, (make_count_matrix_shape H_shifts N_shifts 8 10).1,
    (make_count_matrix_shape H_shifts N_shifts 8 10).2]

/-- The assembled feature vector always has exactly 540 entries. -/
theorem length_pipeline_features (H_shifts N_shifts : List ℚ) :
    (pipeline_features H_shifts N_shifts).length = 540 := by
  rw [pipeline_features_eq, List.length_append, List.length_append,
    length_flat20, length_flat26, length_flat8]

/-- C5: the feature vector is the concatenation of the three row-major
flattened count matrices in fixed GridSpec order: length 540, the
(10,20)-spec 20×10 matrix on indices [0,200), the (10,26)-spec 26×10
matrix on [200,460), the (8,10)-spec 10×8 matrix on [460,540), each
flattened with axis-B rows outer and axis-A columns inner. -/
theorem claim_C5_feature_layout (H_shifts N_shifts : List ℚ) :
    (pipeline_features H_shifts N_shifts).length = 540
    ∧ (pipeline_features H_shifts N_shifts).take 200
        = flatten (make_count_matrix H_shifts N_shifts 10 20)
    ∧ ((pipeline_features H_shifts N_shifts).drop 200).take 260
        = flatten (make_count_matrix H_shifts N_shifts 10 26)
    ∧ (pipeline_features H_shifts N_shifts).drop 460
        = flatten (make_count_matrix H_shifts N_shifts 8 10)
    ∧ (make_count_matrix H_shifts N_shifts 10 20).rows = 20
    ∧ (make_count_matrix H_shifts N_shifts 10 20).cols = 10
    ∧ (make_count_matrix H_shifts N_shifts 10 26).rows = 26
    ∧ (make_count_matrix H_shifts N_shifts 10 26).cols = 10
    ∧ (make_count_matrix H_shifts N_shifts 8 10).rows = 10
    ∧ (make_count_matrix H_shifts N_shifts 8 10).cols = 8 := by
  refine ⟨length_pipeline_features H_shifts N_shifts, ?_, ?_, ?_,
    (make_count_matrix_shape H_shifts N_shifts 10 20).1,
    (make_count_matrix_shape H_shifts N_shifts 10 20).2,
    (make_count_matrix_shape H_shifts N_shifts 10 26).1,
    (make_count_matrix_shape H_shifts N_shifts 10 26).2,
    (make_count_matrix_shape H_shifts N_shifts 8 10).1,
    (make_count_matrix_shape H_shifts N_shifts 8 10).2⟩
  · rw [pipeline_features_eq]
    exact List.take_left' (length_flat20 H_shifts N_shifts)
  · rw [pipeline_features_eq, List.drop_left' (length_flat20 H_shifts N_shifts)]
    exact List.take_left' (length_flat26 H_shifts N_shifts)
  · rw [pipeline_features_eq, ← List.append_assoc]
    apply List.drop_left'
    rw [List.length_append, length_flat20, length_flat26]

set_option maxRecDepth 40000 in
/-- C6 counterexample: a CSV-branch run with an empty peak list does not
fail; it silently produces the all-zero 540-long feature vector that the
claim says must never be produced. -/
theorem claim_C6_counterexample : run_csv [] [] = List.replicate 540 0 := by decide

/-- C6 (amended): only the interactive instrument branch guards against
an empty peak list (raising the NO PEAKS SELECTED error before any
binning); the CSV and test branches perform no such check and proceed to
a full-length feature vector. -/
theorem claim_C6_empty_guard :
    run_interactive []
      = Except.error "NO PEAKS SELECTED! Use the pp command or select the peaks manually!"
    ∧ (run_csv [] []).length = 540 :=
  ⟨rfl, length_pipeline_features [] []⟩

/-- C7 counterexample: fed three 1×1 matrices (wrong shapes), the
assembler raises nothing and returns a vector of length 3 ≠ 540. -/
theorem claim_C7_counterexample :
    (combine_inputs (np_zeros 1 1) (np_zeros 1 1) (np_zeros 1 1)).length = 3
    ∧ (3 : ℕ) ≠ 540 :=
  ⟨rfl, by norm_num⟩

/-- C7 (amended): `combine_inputs` performs no shape validation and
cannot fail; it returns a vector whose length is the total cell count of
the three matrices, which is 540 exactly when the shapes match the three
GridSpecs, and silently differs from 540 otherwise. -/
theorem claim_C7_silent_length (m1 m2 m3 : NPMatrix) :
    (combine_inputs m1 m2 m3).length
      = m1.rows * m1.cols + m2.rows * m2.cols + m3.rows * m3.cols := by
  simp only [combine_inputs, List.length_append, length_flatten]

/-- C8: the regressor's first output is reported as coil, the second as
sheet, the third as helix, and each reported percentage is the raw
output rounded to three decimal places and then multiplied by 100. -/
theorem claim_C8_output_mapping (p0 p1 p2 : ℚ) :
    (formatPrediction [p0, p1, p2]).coil = pyRound3 p0 * 100
    ∧ (formatPrediction [p0, p1, p2]).sheet = pyRound3 p1 * 100
    ∧ (formatPrediction [p0, p1, p2]).helix = pyRound3 p2 * 100 :=
  ⟨rfl, rfl, rfl⟩

/-- C2 counterexample: on peaks (7, 200) and (20, 100) under the
(10, 20) GridSpec the count matrix cells sum to 1, although zero peaks
have both indices in range, so the sum does not equal the number of
peaks in range on both axes simultaneously. -/
theorem claim_C2_counterexample :
    sumCells (make_count_matrix [7, 20] [200, 100] 10 20) = 1
    ∧ (jointBinningSpec [(7, 200), (20, 100)] (1/2) 6 10 (5/2) 90 20).length = 0 := by
  have hmat : make_count_matrix [7, 20] [200, 100] 10 20
      = generate_count_peaks_matrix [2] [4] 10 20 := by
    norm_num [make_count_matrix, H_shift_max, H_shift_min, N_shift_max, N_shift_min, binning]
  refine ⟨?_, by norm_num [jointBinningSpec]⟩
  rw [hmat]
  decide

/-- C2 (amended): for every peak list the cell sum is the minimum of the
two per-axis retained counts; it is at most the number of input peaks,
with equality exactly when no peak is dropped on either axis. (The
original claim that the sum equals the number of peaks in range on both
axes simultaneously fails, see the counterexample.) -/
theorem claim_C2_sum_conservation (peaks : List (ℚ × ℚ))
    (H_binsize N_binsize H_min N_min : ℚ) (H_num N_num : ℕ)
    (hH : 0 < H_binsize) (hN : 0 < N_binsize) :
    sumCells (generate_count_peaks_matrix
        (binning (peaks.map Prod.fst) H_binsize H_min H_num)
        (binning (peaks.map Prod.snd) N_binsize N_min N_num) H_num N_num)
      = min (binning (peaks.map Prod.fst) H_binsize H_min H_num).length
          (binning (peaks.map Prod.snd) N_binsize N_min N_num).length
    ∧ sumCells (generate_count_peaks_matrix
        (binning (peaks.map Prod.fst) H_binsize H_min H_num)
        (binning (peaks.map Prod.snd) N_binsize N_min N_num) H_num N_num)
      ≤ peaks.length
    ∧ (sumCells (generate_count_peaks_matrix
          (binning (peaks.map Prod.fst) H_binsize H_min H_num)
          (binning (peaks.map Prod.snd) N_binsize N_min N_num) H_num N_num)
        = peaks.length
      ↔ (binning (peaks.map Prod.fst) H_binsize H_min H_num).length = peaks.length
        ∧ (binning (peaks.map Prod.snd) N_binsize N_min N_num).length = peaks.length) := by
  set LH := binning (peaks.map Prod.fst) H_binsize H_min H_num with hLH
  set LN := binning (peaks.map Prod.snd) N_binsize N_min N_num with hLN
  have hsum : sumCells (generate_count_peaks_matrix LH LN H_num N_num)
      = (LH.zip LN).length := by
    apply sumCells_generate
    intro p hp
    obtain ⟨a, b⟩ := p
    obtain ⟨h1, h2⟩ := List.of_mem_zip hp
    have hb1 := mem_binning_bounds h1
    have hb2 := mem_binning_bounds h2
    exact ⟨⟨hb1.1, by omega⟩, ⟨hb2.1, by omega⟩⟩
  have hzip : (LH.zip LN).length = min LH.length LN.length := List.length_zip _ _
  have hlh : LH.length ≤ peaks.length := by
    have := binning_length_le (peaks.map Prod.fst) H_binsize H_min H_num
    rw [List.length_map] at this
    rw [hLH]
    exact this
  have hln : LN.length ≤ peaks.length := by
    have := binning_length_le (peaks.map Prod.snd) N_binsize N_min N_num
    rw [List.length_map] at this
    rw [hLN]
    exact this
  rw [hsum, hzip]
  refine ⟨rfl, by omega, by omega⟩

/-- Witness for C2 at a concrete input: the single peak (7, 100), in
range on both axes of the (10, 20) GridSpec. -/
theorem claim_C2_witness :
    0 < ((1 : ℚ)/2) ∧ 0 < ((5 : ℚ)/2)
    ∧ (sumCells (generate_count_peaks_matrix
          (binning (([((7 : ℚ), (100 : ℚ))]).map Prod.fst) (1/2) 6 10)
          (binning (([((7 : ℚ), (100 : ℚ))]).map Prod.snd) (5/2) 90 20) 10 20)
        = min (binning (([((7 : ℚ), (100 : ℚ))]).map Prod.fst) (1/2) 6 10).length
            (binning (([((7 : ℚ), (100 : ℚ))]).map Prod.snd) (5/2) 90 20).length
      ∧ sumCells (generate_count_peaks_matrix
          (binning (([((7 : ℚ), (100 : ℚ))]).map Prod.fst) (1/2) 6 10)
          (binning (([((7 : ℚ), (100 : ℚ))]).map Prod.snd) (5/2) 90 20) 10 20)
        ≤ ([((7 : ℚ), (100 : ℚ))]).length
      ∧ (sumCells (generate_count_peaks_matrix
            (binning (([((7 : ℚ), (100 : ℚ))]).map Prod.fst) (1/2) 6 10)
            (binning (([((7 : ℚ), (100 : ℚ))]).map Prod.snd) (5/2) 90 20) 10 20)
          = ([((7 : ℚ), (100 : ℚ))]).length
        ↔ (binning (([((7 : ℚ), (100 : ℚ))]).map Prod.fst) (1/2) 6 10).length
            = ([((7 : ℚ), (100 : ℚ))]).length
          ∧ (binning (([((7 : ℚ), (100 : ℚ))]).map Prod.snd) (5/2) 90 20).length
            = ([((7 : ℚ), (100 : ℚ))]).length)) :=
  ⟨by norm_num, by norm_num,
    claim_C2_sum_conservation [((7 : ℚ), (100 : ℚ))] (1/2) (5/2) 6 90 10 20
      (by norm_num) (by norm_num)⟩

/-- C10: the count-matrix builder pairs the two binned index lists
positionally, truncating to the shorter one and silently ignoring the
surplus of the longer one, so the cell sum is the length of the zip,
which is the minimum of the two list lengths. -/
theorem claim_C10_positional_truncation (H_shifts N_shifts : List ℚ)
    (H_binsize N_binsize H_min N_min : ℚ) (H_num N_num : ℕ)
    (hH : 0 < H_binsize) (hN : 0 < N_binsize) :
    sumCells (generate_count_peaks_matrix (binning H_shifts H_binsize H_min H_num)
        (binning N_shifts N_binsize N_min N_num) H_num N_num)
      = ((binning H_shifts H_binsize H_min H_num).zip
          (binning N_shifts N_binsize N_min N_num)).length
    ∧ ((binning H_shifts H_binsize H_min H_num).zip
          (binning N_shifts N_binsize N_min N_num)).length
      = min (binning H_shifts H_binsize H_min H_num).length
          (binning N_shifts N_binsize N_min N_num).length := by
  refine ⟨?_, List.length_zip _ _⟩
  apply sumCells_generate
  intro p hp
  obtain ⟨a, b⟩ := p
  obtain ⟨h1, h2⟩ := List.of_mem_zip hp
  have hb1 := mem_binning_bounds h1
  have hb2 := mem_binning_bounds h2
  exact ⟨⟨hb1.1, by omega⟩, ⟨hb2.1, by omega⟩⟩

/-- Witness for C10 at a concrete input with lists of unequal length:
two H shifts are retained but only one N shift is supplied, and the cell
sum is min 2 1 = 1. -/
theorem claim_C10_witness :
    0 < ((1 : ℚ)/2) ∧ 0 < ((5 : ℚ)/2)
    ∧ (sumCells (generate_count_peaks_matrix (binning [(7 : ℚ), 7] (1/2) 6 10)
          (binning [(100 : ℚ)] (5/2) 90 20) 10 20)
        = ((binning [(7 : ℚ), 7] (1/2) 6 10).zip (binning [(100 : ℚ)] (5/2) 90 20)).length
      ∧ ((binning [(7 : ℚ), 7] (1/2) 6 10).zip (binning [(100 : ℚ)] (5/2) 90 20)).length
        = min (binning [(7 : ℚ), 7] (1/2) 6 10).length
            (binning [(100 : ℚ)] (5/2) 90 20).length) :=
  ⟨by norm_num, by norm_num,
    claim_C10_positional_truncation [(7 : ℚ), 7] [(100 : ℚ)] (1/2) (5/2) 6 90 10 20
      (by norm_num) (by norm_num)⟩

end SSP
